import Mathlib

/-!
# Verification of the legal-assistant frontend client

Shallow embedding of the client-side logic of the legal-assistant web
application: the SSE streaming parser and error translation of the API
module (`lib/api.ts`, its `askQuestionStreaming` and relatives), the
usage-limit checks of the subscription context
(`lib/supabase/subscription-context.tsx`), and the chat UI state
transitions of `components/ChatInterface.tsx`.

Strings from the JavaScript side are modelled as `List Char`; JavaScript
numbers used by the usage logic are modelled as `Int` (plus an explicit
`Infinity` marker where `Math.min(Infinity, _)` appears in the source).
-/

namespace LegalAssistant

/-! ## Characters and whitespace

`String.prototype.trim` removes whitespace from both ends of a string.
We model the whitespace class by the usual ASCII whitespace characters
that can occur in an SSE line (space, tab, carriage return, line feed,
form feed, vertical tab). -/

def isJsWs (c : Char) : Bool :=
  c = ' ' || c = '\t' || c = '\r' || c = '\n' || c = Char.ofNat 12 || c = Char.ofNat 11

/-- Model of `String.prototype.trim`. -/
def trimChars (s : List Char) : List Char :=
  ((s.dropWhile isJsWs).reverse.dropWhile isJsWs).reverse

/-- Model of `String.prototype.trimStart` on the left only (used for
skipping whitespace inside the JSON value model). -/
def skipWs (s : List Char) : List Char :=
  s.dropWhile isJsWs

/-! ## Splitting a buffer on newlines

`buffer.split('\n')` followed by `buffer = lines.pop() || ''` separates a
text buffer into the complete (newline-terminated) lines and the trailing
incomplete line.  `splitNl` returns exactly this pair: the list of
complete lines in order, and the trailing remainder after the last
newline. -/

def splitNl : List Char → List (List Char) × List Char
  | [] => ([], [])
  | c :: rest =>
    if c = '\n' then ([] :: (splitNl rest).1, (splitNl rest).2)
    else
      match splitNl rest with
      | ([], t) => ([], c :: t)
      | (l :: ls, t) => ((c :: l) :: ls, t)

theorem splitNl_nil : splitNl [] = ([], []) := rfl

theorem splitNl_cons_newline (rest : List Char) :
    splitNl ('\n' :: rest) = ([] :: (splitNl rest).1, (splitNl rest).2) := by
  simp [splitNl]

theorem splitNl_cons_other (c : Char) (rest : List Char) (hc : ¬ c = '\n') :
    splitNl (c :: rest) =
      (match splitNl rest with
        | ([], t) => ([], c :: t)
        | (l :: ls, t) => ((c :: l) :: ls, t)) := by
  simp [splitNl, hc]

/-- A buffer without a newline splits into no complete line and itself as
the trailing remainder. -/
theorem splitNl_no_newline (s : List Char) (h : '\n' ∉ s) :
    splitNl s = ([], s) := by
  induction s with
  | nil => rfl
  | cons c rest ih =>
    have hc : ¬ c = '\n' := fun hh => h (hh ▸ List.mem_cons_self c rest)
    have hr : '\n' ∉ rest := fun hh => h (List.mem_cons_of_mem c hh)
    rw [splitNl_cons_other c rest hc, ih hr]

/-- The trailing remainder produced by `splitNl` never contains a
newline. -/
theorem splitNl_tail_no_newline (s : List Char) : '\n' ∉ (splitNl s).2 := by
  induction s with
  | nil => simp [splitNl]
  | cons c rest ih =>
    by_cases hc : c = '\n'
    · rw [hc, splitNl_cons_newline]
      exact ih
    · rw [splitNl_cons_other c rest hc]
      cases hsp : splitNl rest with
      | mk lines tail =>
        cases lines with
        | nil =>
          simp only
          intro hmem
          rcases List.mem_cons.mp hmem with h1 | h2
          · exact hc h1.symm
          · exact ih (by rw [hsp]; exact h2)
        | cons l ls =>
          simp only
          intro hmem
          exact ih (by rw [hsp]; exact hmem)

/-- Splitting a concatenation: the complete lines of `a ++ b` are the
complete lines of `a` followed by the complete lines of the trailing
remainder of `a` glued onto `b`, and the final trailing remainder comes
from that second split.  This is the key fact behind
chunking-independence of the SSE parser. -/
theorem splitNl_append (a b : List Char) :
    splitNl (a ++ b) =
      ((splitNl a).1 ++ (splitNl ((splitNl a).2 ++ b)).1,
        (splitNl ((splitNl a).2 ++ b)).2) := by
  induction a with
  | nil => simp [splitNl]
  | cons c rest ih =>
    by_cases hc : c = '\n'
    · subst hc
      rw [List.cons_append, splitNl_cons_newline, splitNl_cons_newline, ih]
      simp
    · rw [List.cons_append, splitNl_cons_other c (rest ++ b) hc,
        splitNl_cons_other c rest hc]
      cases hsp : splitNl rest with
      | mk lines tail =>
        cases lines with
        | nil =>
          have h2 : splitNl (rest ++ b) = splitNl (tail ++ b) := by
            rw [ih, hsp]; simp
          rw [h2]
          simp only
          rw [List.cons_append, splitNl_cons_other c (tail ++ b) hc]
          cases hx : splitNl (tail ++ b) with
          | mk xl xt => cases xl <;> simp
        | cons l ls =>
          have h2 : splitNl (rest ++ b) =
              ((l :: ls) ++ (splitNl (tail ++ b)).1, (splitNl (tail ++ b)).2) := by
            rw [ih, hsp]
          rw [h2]
          simp

/-! ## JSON values

SSE event payloads are parsed with `JSON.parse` and inspected through
property access (`event.type`, `event.text`, ...).  `Json` models the
parsed values; `Json.getField` models property access on them, returning
`none` for `undefined` (missing property, or access on a non-object). -/

inductive Json where
  | null : Json
  | bool (b : Bool) : Json
  | num (n : Int) : Json
  | str (s : List Char) : Json
  | arr (elems : List Json) : Json
  | obj (fields : List (List Char × Json)) : Json

def lookupField : List (List Char × Json) → List Char → Option Json
  | [], _ => none
  | (k, v) :: rest, key => if k = key then some v else lookupField rest key

/-- Model of JavaScript property access `value[key]`: `some` the field
value on an object that has the field, `none` (i.e. `undefined`)
otherwise. -/
def Json.getField : Json → List Char → Option Json
  | .obj fields, key => lookupField fields key
  | _, _ => none

/-! ## Callbacks of the streaming API

`StreamCallbacks` of `lib/api.ts` has four members; a run of the parser
produces a sequence of invocations of them.  `onMeta` receives the
`classification`, `sources` and `has_deadlines` properties of the event
(`none` = `undefined` when absent); `onToken` receives `event.text`;
`onError` receives either `event.message` (from an SSE `error` event) or
a string produced by the error-translation layer. -/

inductive Callback where
  | onMeta (classification sources has_deadlines : Option Json) : Callback
  | onToken (text : Option Json) : Callback
  | onDone : Callback
  | onError (message : Option Json) : Callback

/-- The `switch (event.type)` of `askQuestionStreaming` (lib/api.ts):
dispatches exactly one callback when the parsed event's `type` property
is the string `meta`, `token`, `done` or `error`, and nothing
otherwise. -/
def dispatchEvent (j : Json) : List Callback :=
  match j.getField "type".data with
  | some (.str t) =>
    if t = "meta".data then
      [.onMeta (j.getField "classification".data) (j.getField "sources".data)
        (j.getField "has_deadlines".data)]
    else if t = "token".data then [.onToken (j.getField "text".data)]
    else if t = "done".data then [.onDone]
    else if t = "error".data then [.onError (j.getField "message".data)]
    else []
  | _ => []

/-- One iteration of the `for (const line of lines)` loop of
`askQuestionStreaming`: skip lines that do not start with `data: `, strip
the prefix, trim, skip empty payloads, parse as JSON (skipping malformed
payloads) and dispatch on the event type.  The JSON parser is a
parameter, so the theorems below hold for every parsing function. -/
def processLine (parse : List Char → Option Json) (line : List Char) : List Callback :=
  if ("data: ".data).isPrefixOf line then
    match trimChars (line.drop 6) with
    | [] => []
    | jsonStr =>
      match parse jsonStr with
      | some j => dispatchEvent j
      | none => []
  else []

def processLines (parse : List Char → Option Json) : List (List Char) → List Callback
  | [] => []
  | l :: ls => processLine parse l ++ processLines parse ls

theorem processLines_append (parse : List Char → Option Json)
    (xs ys : List (List Char)) :
    processLines parse (xs ++ ys) = processLines parse xs ++ processLines parse ys := by
  induction xs with
  | nil => rfl
  | cons l ls ih => simp [processLines, ih]

/-- One iteration of the `while (true)` read loop: append the chunk to
the buffer, split on newlines, keep the trailing incomplete line as the
new buffer (`lines.pop() || ''`) and process the complete lines. -/
def feedChunk (parse : List Char → Option Json) (buffer chunk : List Char) :
    List Char × List Callback :=
  ((splitNl (buffer ++ chunk)).2, processLines parse (splitNl (buffer ++ chunk)).1)

/-- The whole read loop over a list of decoded chunks, starting from a
given buffer, returning the final buffer and the dispatched callback
sequence in order. -/
def runStream (parse : List Char → Option Json) :
    List Char → List (List Char) → List Char × List Callback
  | buffer, [] => (buffer, [])
  | buffer, chunk :: rest =>
    ((runStream parse (feedChunk parse buffer chunk).1 rest).1,
      (feedChunk parse buffer chunk).2 ++
        (runStream parse (feedChunk parse buffer chunk).1 rest).2)

/-- Running the read loop chunk by chunk is the same as processing the
newline-terminated lines of the full concatenated stream: the final
buffer is the text after the last newline, and the callbacks are those of
the complete lines, in order. -/
theorem runStream_join (parse : List Char → Option Json)
    (buffer : List Char) (chunks : List (List Char)) (hb : '\n' ∉ buffer) :
    runStream parse buffer chunks =
      ((splitNl (buffer ++ chunks.flatten)).2,
        processLines parse (splitNl (buffer ++ chunks.flatten)).1) := by
  induction chunks generalizing buffer with
  | nil =>
    rw [runStream]
    rw [List.flatten_nil, List.append_nil, splitNl_no_newline buffer hb]
    simp [processLines]
  | cons chunk rest ih =>
    rw [runStream]
    have hb2 : '\n' ∉ (splitNl (buffer ++ chunk)).2 :=
      splitNl_tail_no_newline (buffer ++ chunk)
    rw [show (feedChunk parse buffer chunk).1 = (splitNl (buffer ++ chunk)).2 from rfl]
    rw [ih (splitNl (buffer ++ chunk)).2 hb2]
    rw [show (feedChunk parse buffer chunk).2
        = processLines parse (splitNl (buffer ++ chunk)).1 from rfl]
    have key := splitNl_append (buffer ++ chunk) rest.flatten
    rw [List.flatten_cons, ← List.append_assoc, key]
    rw [processLines_append]

/-- The dispatched callback sequence depends only on the concatenation of
the chunks, not on where the stream was cut. -/
theorem runStream_chunking_independent (parse : List Char → Option Json)
    (chunks chunks2 : List (List Char)) (h : chunks.flatten = chunks2.flatten) :
    runStream parse [] chunks = runStream parse [] chunks2 := by
  rw [runStream_join parse [] chunks (by simp),
    runStream_join parse [] chunks2 (by simp), h]

/-! ## A concrete JSON parser

Modelled platform primitive: `JSON.parse`, restricted to the shapes the
SSE events of this API actually carry — a single flat object whose
values are strings (without escape sequences), booleans, `null` or
integers, or a bare scalar.  The theorems about the streaming loop are
parametric in the parsing function; this concrete model is only used to
evaluate the loop on explicit inputs. -/

def braceOpen : Char := Char.ofNat 123

def braceClose : Char := Char.ofNat 125

/-- Body of a JSON string literal after the opening quote: the decoded
characters and the remainder after the closing quote (escape sequences
are outside the modelled fragment and rejected). -/
def strBody : List Char → Option (List Char × List Char)
  | [] => none
  | c :: rest =>
    if c = '"' then some ([], rest)
    else if c = '\\' then none
    else
      match strBody rest with
      | some (s, r) => some (c :: s, r)
      | none => none

def digitsToNat (ds : List Char) : Nat :=
  ds.foldl (fun a c => a * 10 + (c.toNat - 48)) 0

def parseScalar (s : List Char) : Option (Json × List Char) :=
  match s with
  | [] => none
  | c :: rest =>
    if c = '"' then
      match strBody rest with
      | some (str, r) => some (.str str, r)
      | none => none
    else if ("true".data).isPrefixOf s then some (.bool true, s.drop 4)
    else if ("false".data).isPrefixOf s then some (.bool false, s.drop 5)
    else if ("null".data).isPrefixOf s then some (.null, s.drop 4)
    else if c = '-' then
      match rest.takeWhile Char.isDigit with
      | [] => none
      | ds => some (.num (-(digitsToNat ds : Int)), rest.dropWhile Char.isDigit)
    else if c.isDigit then
      some (.num (digitsToNat (s.takeWhile Char.isDigit) : Int),
        s.dropWhile Char.isDigit)
    else none

/-- Members of a flat JSON object, after the opening brace: fueled
recursion on the remaining input. -/
def parsePairs : Nat → List Char → Option (List (List Char × Json) × List Char)
  | 0, _ => none
  | fuel + 1, s =>
    match parseScalar (skipWs s) with
    | some (.str k, r1) =>
      (match skipWs r1 with
       | ':' :: r2 =>
         (match parseScalar (skipWs r2) with
          | some (v, r3) =>
            (match skipWs r3 with
             | ',' :: r4 =>
               (match parsePairs fuel r4 with
                | some (ps, r5) => some ((k, v) :: ps, r5)
                | none => none)
             | c :: r4 => if c = braceClose then some ([(k, v)], r4) else none
             | [] => none)
          | none => none)
       | _ => none)
    | _ => none

def jsonParse (s : List Char) : Option Json :=
  match skipWs s with
  | [] => none
  | c :: rest =>
    if c = braceOpen then
      match skipWs rest with
      | d :: r2 =>
        if d = braceClose then (if skipWs r2 = [] then some (.obj []) else none)
        else
          match parsePairs (s.length + 1) rest with
          | some (ps, r) => if skipWs r = [] then some (.obj ps) else none
          | none => none
      | [] => none
    else
      match parseScalar (c :: rest) with
      | some (v, r) => if skipWs r = [] then some v else none
      | none => none

/-! ## The error-translation layer of `askQuestionStreaming` (lib/api.ts)

`askQuestionStreaming` wraps the whole fetch-and-stream body in a single
`try/catch/finally`; every failure ends in exactly one `callbacks.onError`
call with an Arabic message, and the function itself returns the
controller instead of throwing.  `FetchOutcome` models what the network
run did; the model function returns the full callback sequence. -/

/-- Localized message constants appearing in lib/api.ts. -/
def msgTimeout : List Char := "انتهت المهلة — جرب مرة أخرى".data

def msgOffline : List Char := "لا يوجد اتصال بالإنترنت — تحقق من شبكتك".data

def msg401 : List Char := "انتهت الجلسة — سجّل دخولك مرة أخرى".data

def msg429 : List Char := "تجاوزت الحد المسموح — يرجى الترقية أو الانتظار".data

def msg503 : List Char := "الخادم في صيانة — جرب مرة أخرى بعد قليل".data

def msgGeneric : List Char := "حدث خطأ".data

def msgConnFallback : List Char := "حدث خطأ في الاتصال".data

def msgBodyNotJson : List Char := "خطأ في الاتصال".data

def msgNoStreamSupport : List Char := "Streaming غير مدعوم".data

def abortErrorName : List Char := "AbortError".data

/-- How the stream of a successful (`res.ok`) response ended: normally,
or with an exception thrown during `reader.read()` (e.g. an abort). -/
inductive StreamEnding where
  | normal : StreamEnding
  | thrown (name message : List Char) : StreamEnding

/-- Outcome of the `fetch` call and of reading the body.
* `httpError status jsonOk detail`: `res.ok` is false; `jsonOk` says
  whether `res.json()` succeeded, `detail` is the `detail` property of
  the parsed body (`none` = absent).
* `noBody`: `res.ok` but `res.body` has no reader.
* `fetchThrow name message`: `fetch` (or anything before reading)
  rejected with an exception of that name and message; an abort arrives
  as name `AbortError`.
* `stream chunks ending`: the decoded chunks delivered by the reader
  before the stream ended as `ending`. -/
inductive FetchOutcome where
  | httpError (status : Nat) (jsonOk : Bool) (detail : Option (List Char)) : FetchOutcome
  | noBody : FetchOutcome
  | fetchThrow (name message : List Char) : FetchOutcome
  | stream (chunks : List (List Char)) (ending : StreamEnding) : FetchOutcome

/-- The message of the `Error` thrown for a non-OK response (lines 55-61
of lib/api.ts): dedicated messages for 401/429/503, otherwise
`err.detail || 'حدث خطأ'` where `err` is the parsed body or the fallback
`{ detail: 'خطأ في الاتصال' }` when the body is not JSON. -/
def httpErrorMessage (status : Nat) (jsonOk : Bool) (detail : Option (List Char)) :
    List Char :=
  if status = 401 then msg401
  else if status = 429 then msg429
  else if status = 503 then msg503
  else
    match (if jsonOk then detail else some msgBodyNotJson) with
    | some d => if d = [] then msgGeneric else d
    | none => msgGeneric

/-- The `catch` block of `askQuestionStreaming` (lines 110-117 of
lib/api.ts), checked in source order: `AbortError` first, then the
offline check, then the exception's own message with a generic
fallback. -/
def catchHandler (online : Bool) (name message : List Char) : Callback :=
  if name = abortErrorName then .onError (some (.str msgTimeout))
  else if online = false then .onError (some (.str msgOffline))
  else .onError (some (.str (if message = [] then msgConnFallback else message)))

/-- Whole-run model of `askQuestionStreaming`: the callback sequence it
dispatches for a given fetch outcome and `navigator.onLine` state.  The
function is total — the embedded code never rethrows to its caller. -/
def askStreamRun (parse : List Char → Option Json) (online : Bool) :
    FetchOutcome → List Callback
  | .httpError status jsonOk detail =>
    [catchHandler online "Error".data (httpErrorMessage status jsonOk detail)]
  | .noBody => [catchHandler online "Error".data msgNoStreamSupport]
  | .fetchThrow name message => [catchHandler online name message]
  | .stream chunks ending =>
    match ending with
    | .normal => (runStream parse [] chunks).2
    | .thrown name message =>
      (runStream parse [] chunks).2 ++ [catchHandler online name message]

/-! ### The 120-second abort timers (C8)

Each of `askQuestionStreaming` (lines 43-44), `askQuestion` (lines
128-129) and `draftDocument` (lines 179-180) begins with
`const timeout = setTimeout(() => controller.abort(), 120000)` and clears
it in `finally`.  `RequestSetup` records this application-level timer
installation as data of the embedding. -/

structure RequestSetup where
  /-- Delay in milliseconds of the `setTimeout` installed before the
  fetch, `none` if the function installs no timer. -/
  timerMs : Option Nat
  /-- Whether the timer's callback calls `controller.abort()`. -/
  timerAborts : Bool
  /-- Whether the timer is cleared in a `finally` block. -/
  clearedInFinally : Bool

def askQuestionStreamingSetup : RequestSetup :=
  { timerMs := some 120000, timerAborts := true, clearedInFinally := true }

def askQuestionSetup : RequestSetup :=
  { timerMs := some 120000, timerAborts := true, clearedInFinally := true }

def draftDocumentSetup : RequestSetup :=
  { timerMs := some 120000, timerAborts := true, clearedInFinally := true }

/-! ## Usage limits (lib/supabase/subscription-context.tsx)

Counters and limits are JavaScript numbers; the sentinel `-1` means
unlimited.  `usage.limits || DEFAULT_LIMITS` is modelled by an optional
`limits` field with the same default. -/

structure UsageLimits where
  questions_per_day : Int
  questions_per_month : Int
  drafts_per_month : Int
  deadlines_per_month : Int
  conversations : Int

structure UsageToday where
  questions_count : Int
  drafts_count : Int
  deadlines_count : Int

structure UsageMonthly where
  questions : Int
  drafts : Int
  deadlines : Int

structure UsageData where
  today : UsageToday
  monthly : UsageMonthly
  limits : Option UsageLimits

inductive UsageAction where
  | questions : UsageAction
  | drafts : UsageAction
  | deadlines : UsageAction
deriving DecidableEq

def DEFAULT_LIMITS : UsageLimits :=
  { questions_per_day := 3, questions_per_month := 30, drafts_per_month := 1,
    deadlines_per_month := 3, conversations := 5 }

/-- `canPerformAction` (subscription-context.tsx, lines 162-181). -/
def canPerformAction (usage : Option UsageData) (action : UsageAction) : Bool :=
  match usage with
  | none => true
  | some u =>
    let limits := u.limits.getD DEFAULT_LIMITS
    match action with
    | .questions =>
      if limits.questions_per_day ≠ -1 ∧ limits.questions_per_day ≤ u.today.questions_count then false
      else if limits.questions_per_month ≠ -1 ∧ limits.questions_per_month ≤ u.monthly.questions then false
      else true
    | .drafts =>
      if limits.drafts_per_month ≠ -1 ∧ limits.drafts_per_month ≤ u.monthly.drafts then false
      else true
    | .deadlines =>
      if limits.deadlines_per_month ≠ -1 ∧ limits.deadlines_per_month ≤ u.monthly.deadlines then false
      else true

/-- JavaScript numbers as they appear in `getRemainingCount`: finite
values plus `Infinity` (used as the daily/monthly remainder of an
unlimited limit before `Math.min`). -/
inductive Jnum where
  | fin (val : Int) : Jnum
  | inf : Jnum
deriving DecidableEq

/-- `Math.min` on the modelled numbers. -/
def jmin : Jnum → Jnum → Jnum
  | .inf, b => b
  | .fin a, .inf => .fin a
  | .fin a, .fin b => .fin (min a b)

/-- `getRemainingCount` (subscription-context.tsx, lines 188-210). -/
def getRemainingCount (usage : Option UsageData) (action : UsageAction) : Jnum :=
  match usage with
  | none => .fin (-1)
  | some u =>
    let limits := u.limits.getD DEFAULT_LIMITS
    match action with
    | .questions =>
      if limits.questions_per_day = -1 ∧ limits.questions_per_month = -1 then .fin (-1)
      else
        jmin
          (if limits.questions_per_day = -1 then .inf
            else .fin (max 0 (limits.questions_per_day - u.today.questions_count)))
          (if limits.questions_per_month = -1 then .inf
            else .fin (max 0 (limits.questions_per_month - u.monthly.questions)))
    | .drafts =>
      if limits.drafts_per_month = -1 then .fin (-1)
      else .fin (max 0 (limits.drafts_per_month - u.monthly.drafts))
    | .deadlines =>
      if limits.deadlines_per_month = -1 then .fin (-1)
      else .fin (max 0 (limits.deadlines_per_month - u.monthly.deadlines))

/-- `formatLimit` (components/PricingCard.tsx, lines 50-53). -/
def formatLimit (value : Int) (unit : List Char) : List Char :=
  if value = -1 then "غير محدود".data
  else (toString value).data ++ " ".data ++ unit

/-- What `UsageLimitBanner` (components/UsageLimitBanner.tsx) renders. -/
inductive BannerView where
  | hidden : BannerView
  | limitReached : BannerView
  | approaching : BannerView
deriving DecidableEq

/-- The render decision of `UsageLimitBanner`: nothing while the
subscription context is loading, nothing for unlimited plans
(`remaining === -1`), nothing while more than 3 remain and the action is
allowed; a red limit-reached banner when `canPerformAction` is false,
and a yellow warning otherwise. -/
def usageLimitBanner (contextLoading : Bool) (usage : Option UsageData)
    (action : UsageAction) : BannerView :=
  if contextLoading then .hidden
  else
    let remaining := getRemainingCount usage action
    let canPerform := canPerformAction usage action
    if remaining = .fin (-1) then .hidden
    else if canPerform && (match remaining with
        | .fin v => decide (3 < v)
        | .inf => true) then .hidden
    else if canPerform = false then .limitReached
    else .approaching

/-! ## Chat interface state (components/ChatInterface.tsx)

The component state and refs, and the state transitions performed by its
handlers.  Each handler runs to completion on the single browser thread,
so a handler is one atomic step.  Asynchronous fire-and-forget calls
(`addMessage`, `trackEvent`, analytics) do not touch the modelled state
and are omitted; the result of `createConversation` enters `sendMessage`
as a parameter. -/

inductive Role where
  | user : Role
  | assistant : Role
deriving DecidableEq

structure ChatMessage where
  id : Option (List Char) := none
  role : Role
  content : List Char
  sources : Option Json := none
  classification : Option Json := none
  isStreaming : Bool := false
  isError : Bool := false

structure ChatState where
  messages : List ChatMessage
  input : List Char
  loading : Bool
  isThinking : Bool
  modelMode : List Char
  currentConvId : Option (List Char)
  /-- `streamingContentRef.current` -/
  streamingContent : List Char
  /-- `streamingMetaRef.current.sources` -/
  streamingSources : Option Json
  /-- `streamingMetaRef.current.classification` -/
  streamingClassification : Option Json
  /-- whether `abortRef.current` holds a controller -/
  abortSet : Bool
  /-- `pendingRetryRef.current`: question and `skipUserMessage` flag -/
  pendingRetry : Option (List Char × Bool)

/-- `updated[last] = f(updated[last])` on a JavaScript array copy: apply
`f` to the last element, keep everything else. -/
def updateLast (f : ChatMessage → ChatMessage) : List ChatMessage → List ChatMessage
  | [] => []
  | [m] => [f m]
  | m :: rest => m :: updateLast f rest

/-- `messages.slice(-4)`. -/
def lastN (n : Nat) (xs : List ChatMessage) : List ChatMessage :=
  xs.drop (xs.length - n)

/-- The per-message transformation of the chat history (line 190):
assistant content is cut to its first 500 characters with `...` appended
when something was cut; user content is passed through. -/
def truncateForHistory (m : ChatMessage) : List Char :=
  if m.role = .assistant then
    m.content.take 500 ++ (if 500 < m.content.length then "...".data else [])
  else m.content

structure HistEntry where
  role : Role
  content : List Char
deriving DecidableEq

/-- Lines 184-191: take the last 4 of the pre-send message list, drop the
final entry when regenerating over a trailing user message, and map the
truncation. -/
def buildChatHistory (msgs : List ChatMessage) (skip : Bool) : List HistEntry :=
  let recent := lastN 4 msgs
  ((recent.enum.filter (fun p =>
      !(skip && p.1 = recent.length - 1 && p.2.role = Role.user))).map
    (fun p => { role := p.2.role, content := truncateForHistory p.2 }))

/-- The request handed to `askQuestionStreaming` by `sendMessage`. -/
structure StreamRequest where
  question : List Char
  chatHistory : Option (List HistEntry)
  modelMode : List Char
deriving DecidableEq

/-- `const q = question || input.trim()`. -/
def effectiveQuestion (st : ChatState) (question : Option (List Char)) : List Char :=
  match question with
  | some q => if q = [] then trimChars st.input else q
  | none => trimChars st.input

/-- `sendMessage` (lines 142-278) as one step: the state after its
synchronous updates, and the issued streaming request, `none` when the
guard `if (!q || loading) return` fires.  `convResult` is the id
returned by `createConversation` when one is attempted and succeeds
(`none` models a failed creation). -/
def sendMessage (st : ChatState) (question : Option (List Char)) (skip : Bool)
    (convResult : Option (List Char)) : ChatState × Option StreamRequest :=
  let q := effectiveQuestion st question
  if q = [] || st.loading then (st, none)
  else
    let st1 :=
      if skip then st
      else { st with input := [],
                     messages := st.messages ++ [{ role := .user, content := q }] }
    let convId :=
      match st.currentConvId with
      | some c => some c
      | none => convResult
    let history := buildChatHistory st.messages skip
    ({ st1 with
        loading := true, isThinking := true,
        streamingContent := [], streamingSources := none,
        streamingClassification := none,
        currentConvId := convId,
        messages := st1.messages ++ [{ role := .assistant, content := [], isStreaming := true }],
        abortSet := true },
      some { question := q,
             chatHistory := if history = [] then none else some history,
             modelMode := st.modelMode })

/-- `stopGenerating` (lines 123-140); the boolean is whether
`abort()` was called on a live controller. -/
def stopGenerating (st : ChatState) : ChatState × Bool :=
  ({ st with
      loading := false, isThinking := false, abortSet := false,
      messages := updateLast (fun last =>
        if last.isStreaming then
          { last with
              content := if st.streamingContent = [] then last.content
                          else st.streamingContent,
              isStreaming := false }
        else last) st.messages },
    st.abortSet)

/-- The `onMeta` callback of `sendMessage` (lines 210-212). -/
def stepMeta (st : ChatState) (sources classification : Option Json) : ChatState :=
  { st with streamingSources := sources, streamingClassification := classification }

/-- The `onToken` callback of `sendMessage` (lines 213-222). -/
def stepToken (st : ChatState) (text : List Char) : ChatState :=
  { st with
      isThinking := false,
      streamingContent := st.streamingContent ++ text,
      messages := updateLast (fun last =>
        { last with content := st.streamingContent ++ text, isStreaming := true })
        st.messages }

/-- The `onDone` callback of `sendMessage` (lines 223-254), synchronous
part (the asynchronous id backfill after `addMessage` resolves is not
modelled). -/
def stepDone (st : ChatState) : ChatState :=
  { st with
      loading := false, isThinking := false, abortSet := false,
      messages := updateLast (fun last =>
        { last with
            content := st.streamingContent,
            sources := st.streamingSources,
            classification := st.streamingClassification,
            isStreaming := false }) st.messages }

/-- The `onError` callback of `sendMessage` (lines 256-272); the last
message is replaced by a freshly-built assistant message. -/
def stepError (st : ChatState) (error : List Char) : ChatState :=
  let hasPartial : Bool := st.streamingContent ≠ []
  { st with
      loading := false, isThinking := false, abortSet := false,
      messages := updateLast (fun _ =>
        { id := none, role := .assistant,
          content := if hasPartial
                      then st.streamingContent ++ ("\n\n".data ++ error)
                      else error,
          sources := none, classification := none,
          isStreaming := false, isError := !hasPartial }) st.messages }

/-- Content of the most recent user message, scanning from the end
(lines 283-289). -/
def lastUserContent : List ChatMessage → Option (List Char)
  | [] => none
  | m :: rest =>
    match lastUserContent rest with
    | some c => some c
    | none => if m.role = .user then some m.content else none

/-- Drop a trailing message of the given role (the `pop()` calls of
`retryLastMessage` / `regenerateResponse`). -/
def popIfLastRole (msgs : List ChatMessage) (r : Role) : List ChatMessage :=
  match msgs.getLast? with
  | some m => if m.role = r then msgs.dropLast else msgs
  | none => msgs

/-- `retryLastMessage` (lines 280-299). -/
def stepRetry (st : ChatState) : ChatState :=
  if st.loading then st
  else
    match lastUserContent st.messages with
    | none => st
    | some q =>
      if q = [] then st
      else
        { st with
            messages := popIfLastRole (popIfLastRole st.messages .assistant) .user,
            pendingRetry := some (q, false) }

/-- `regenerateResponse` (lines 301-319). -/
def stepRegenerate (st : ChatState) : ChatState :=
  if st.loading then st
  else
    match lastUserContent st.messages with
    | none => st
    | some q =>
      if q = [] then st
      else
        { st with
            messages := popIfLastRole st.messages .assistant,
            pendingRetry := some (q, true) }

/-- The submit button's `disabled` expression
(`loading || !input.trim()`, lines 547-550). -/
def submitDisabled (st : ChatState) : Bool :=
  st.loading || (trimChars st.input).isEmpty

/-- All state-changing handlers of the component, as events. -/
inductive ChatEvent where
  | send (question : Option (List Char)) (skip : Bool) (convResult : Option (List Char)) : ChatEvent
  | meta (sources classification : Option Json) : ChatEvent
  | token (text : List Char) : ChatEvent
  | done : ChatEvent
  | error (message : List Char) : ChatEvent
  | stop : ChatEvent
  | retry : ChatEvent
  | regenerate : ChatEvent
  | setInput (s : List Char) : ChatEvent
  | setModelMode (m : List Char) : ChatEvent

/-- One component step: the next state, the streaming request issued (if
any), and whether an abort was signalled. -/
def chatStep (st : ChatState) : ChatEvent → ChatState × Option StreamRequest × Bool
  | .send question skip convResult =>
    ((sendMessage st question skip convResult).1,
      (sendMessage st question skip convResult).2, false)
  | .meta s c => (stepMeta st s c, none, false)
  | .token t => (stepToken st t, none, false)
  | .done => (stepDone st, none, false)
  | .error e => (stepError st e, none, false)
  | .stop => ((stopGenerating st).1, none, (stopGenerating st).2)
  | .retry => (stepRetry st, none, false)
  | .regenerate => (stepRegenerate st, none, false)
  | .setInput s => ({ st with input := s }, none, false)
  | .setModelMode m => ({ st with modelMode := m }, none, false)

/-! ## Helper lemmas -/

theorem updateLast_cons (f : ChatMessage → ChatMessage) (a : ChatMessage)
    (xs : List ChatMessage) (h : xs ≠ []) :
    updateLast f (a :: xs) = a :: updateLast f xs := by
  cases xs with
  | nil => exact absurd rfl h
  | cons b ys => rfl

theorem updateLast_append (f : ChatMessage → ChatMessage)
    (rest : List ChatMessage) (m : ChatMessage) :
    updateLast f (rest ++ [m]) = rest ++ [f m] := by
  induction rest with
  | nil => rfl
  | cons a rest ih =>
    rw [List.cons_append, updateLast_cons f a (rest ++ [m]) (by simp), ih,
      List.cons_append]

/-- `sendMessage` is blocked (state unchanged, no request) whenever
`loading` is set. -/
theorem sendMessage_blocked (st : ChatState) (question : Option (List Char))
    (skip : Bool) (convResult : Option (List Char)) (h : st.loading = true) :
    sendMessage st question skip convResult = (st, none) := by
  rw [sendMessage]
  simp [h]

/-- `httpErrorMessage` never produces an empty message. -/
theorem httpErrorMessage_ne_nil (status : Nat) (jsonOk : Bool)
    (detail : Option (List Char)) :
    httpErrorMessage status jsonOk detail ≠ [] := by
  rw [httpErrorMessage]
  split_ifs with h1 h2 h3 h4
  · decide
  · decide
  · decide
  · cases detail with
    | none => decide
    | some d =>
      show (if d = [] then msgGeneric else d) ≠ []
      by_cases hd : d = []
      · rw [if_pos hd]; decide
      · rw [if_neg hd]; exact hd
  · decide

/-- If `canPerformAction` denies questions, the remaining count is a
non-negative finite number (in particular not the unlimited sentinel). -/
theorem canPerform_false_remaining (u : UsageData)
    (h : canPerformAction (some u) .questions = false) :
    ∃ v : Int, 0 ≤ v ∧ getRemainingCount (some u) .questions = .fin v := by
  by_cases hd : (u.limits.getD DEFAULT_LIMITS).questions_per_day = -1 <;>
    by_cases hm : (u.limits.getD DEFAULT_LIMITS).questions_per_month = -1
  · simp [canPerformAction, hd, hm] at h
  · refine ⟨max 0 ((u.limits.getD DEFAULT_LIMITS).questions_per_month - u.monthly.questions), le_max_left _ _, ?_⟩
    simp [getRemainingCount, hd, hm, jmin]
  · refine ⟨max 0 ((u.limits.getD DEFAULT_LIMITS).questions_per_day - u.today.questions_count), le_max_left _ _, ?_⟩
    simp [getRemainingCount, hd, hm, jmin]
  · refine ⟨min (max 0 ((u.limits.getD DEFAULT_LIMITS).questions_per_day - u.today.questions_count))
      (max 0 ((u.limits.getD DEFAULT_LIMITS).questions_per_month - u.monthly.questions)),
      le_min (le_max_left _ _) (le_max_left _ _), ?_⟩
    simp [getRemainingCount, hd, hm, jmin]

/-! ## Claims -/

/-- C2: the usage-limit checker is pure arithmetic comparison against the
counters: questions are denied exactly when the daily or the monthly
limit is set (not `-1`) and its counter has reached it; drafts and
deadlines are denied exactly when their monthly limit is set and
reached; absent usage data allows everything. -/
theorem claim_C2_usage_limit_checker :
    (∀ action : UsageAction, canPerformAction none action = true) ∧
    (∀ (u : UsageData) (l : UsageLimits), u.limits = some l →
      (canPerformAction (some u) .questions = false ↔
        ((l.questions_per_day ≠ -1 ∧ l.questions_per_day ≤ u.today.questions_count) ∨
         (l.questions_per_month ≠ -1 ∧ l.questions_per_month ≤ u.monthly.questions))) ∧
      (canPerformAction (some u) .drafts = false ↔
        (l.drafts_per_month ≠ -1 ∧ l.drafts_per_month ≤ u.monthly.drafts)) ∧
      (canPerformAction (some u) .deadlines = false ↔
        (l.deadlines_per_month ≠ -1 ∧ l.deadlines_per_month ≤ u.monthly.deadlines))) := by
  constructor
  · intro action
    cases action <;> rfl
  · intro u l h
    refine ⟨?_, ?_, ?_⟩
    · simp only [canPerformAction, h, Option.getD_some]
      split_ifs with h1 h2
      · exact iff_of_true rfl (Or.inl h1)
      · exact iff_of_true rfl (Or.inr h2)
      · exact iff_of_false (by simp) (not_or.mpr ⟨h1, h2⟩)
    · simp only [canPerformAction, h, Option.getD_some]
      split_ifs with h1
      · exact iff_of_true rfl h1
      · exact iff_of_false (by simp) h1
    · simp only [canPerformAction, h, Option.getD_some]
      split_ifs with h1
      · exact iff_of_true rfl h1
      · exact iff_of_false (by simp) h1

/-- Witness for C2 at a concrete usage state: the default free plan with
3 of 3 daily questions used denies another question. -/
theorem claim_C2_witness :
    canPerformAction
      (some { today := ⟨3, 0, 0⟩, monthly := ⟨3, 0, 0⟩,
              limits := some DEFAULT_LIMITS }) .questions = false :=
  ((claim_C2_usage_limit_checker.2
      { today := ⟨3, 0, 0⟩, monthly := ⟨3, 0, 0⟩, limits := some DEFAULT_LIMITS }
      DEFAULT_LIMITS rfl).1).mpr (Or.inl ⟨by decide, by decide⟩)

/-- C9: the sentinel `-1` uniformly means unlimited: `getRemainingCount`
returns `-1` exactly when every limit relevant to the action is `-1`
(for questions: both), otherwise the (for questions: minimum of the)
clamped remainders `max 0 (limit - used)`; the result is always `-1` or
non-negative; `formatLimit` renders `-1` as the unlimited label. -/
theorem claim_C9_remaining_counts :
    (∀ (u : UsageData) (l : UsageLimits), u.limits = some l →
      ((getRemainingCount (some u) .questions = .fin (-1) ↔
        (l.questions_per_day = -1 ∧ l.questions_per_month = -1)) ∧
       (l.questions_per_day ≠ -1 → l.questions_per_month = -1 →
        getRemainingCount (some u) .questions =
          .fin (max 0 (l.questions_per_day - u.today.questions_count))) ∧
       (l.questions_per_day = -1 → l.questions_per_month ≠ -1 →
        getRemainingCount (some u) .questions =
          .fin (max 0 (l.questions_per_month - u.monthly.questions))) ∧
       (l.questions_per_day ≠ -1 → l.questions_per_month ≠ -1 →
        getRemainingCount (some u) .questions =
          .fin (min (max 0 (l.questions_per_day - u.today.questions_count))
            (max 0 (l.questions_per_month - u.monthly.questions)))) ∧
       (getRemainingCount (some u) .drafts = .fin (-1) ↔ l.drafts_per_month = -1) ∧
       (l.drafts_per_month ≠ -1 →
        getRemainingCount (some u) .drafts =
          .fin (max 0 (l.drafts_per_month - u.monthly.drafts))) ∧
       (getRemainingCount (some u) .deadlines = .fin (-1) ↔ l.deadlines_per_month = -1) ∧
       (l.deadlines_per_month ≠ -1 →
        getRemainingCount (some u) .deadlines =
          .fin (max 0 (l.deadlines_per_month - u.monthly.deadlines))))) ∧
    (∀ (usage : Option UsageData) (action : UsageAction),
      ∃ v : Int, getRemainingCount usage action = .fin v ∧ (v = -1 ∨ 0 ≤ v)) ∧
    (∀ unit : List Char, formatLimit (-1) unit = "غير محدود".data) := by
  refine ⟨?_, ?_, fun unit => rfl⟩
  · intro u l h
    simp only [getRemainingCount, h, Option.getD_some]
    refine ⟨?_, ?_, ?_, ?_, ?_, ?_, ?_, ?_⟩
    · by_cases hd : l.questions_per_day = -1 <;> by_cases hm : l.questions_per_month = -1
      · rw [if_pos ⟨hd, hm⟩]
        simp [hd, hm]
      · rw [if_neg (fun hcon => hm hcon.2), if_pos hd, if_neg hm]
        show Jnum.fin (max 0 (l.questions_per_month - u.monthly.questions)) =
          Jnum.fin (-1) ↔ _
        constructor
        · intro hcon
          injection hcon with hv
          have h0 : (0 : Int) ≤ max 0 (l.questions_per_month - u.monthly.questions) :=
            le_max_left _ _
          omega
        · intro hcon
          exact absurd hcon.2 hm
      · rw [if_neg (fun hcon => hd hcon.1), if_neg hd, if_pos hm]
        show Jnum.fin (max 0 (l.questions_per_day - u.today.questions_count)) =
          Jnum.fin (-1) ↔ _
        constructor
        · intro hcon
          injection hcon with hv
          have h0 : (0 : Int) ≤ max 0 (l.questions_per_day - u.today.questions_count) :=
            le_max_left _ _
          omega
        · intro hcon
          exact absurd hcon.1 hd
      · rw [if_neg (fun hcon => hd hcon.1), if_neg hd, if_neg hm]
        show Jnum.fin (min (max 0 (l.questions_per_day - u.today.questions_count))
          (max 0 (l.questions_per_month - u.monthly.questions))) = Jnum.fin (-1) ↔ _
        constructor
        · intro hcon
          injection hcon with hv
          have h0 : (0 : Int) ≤
              min (max 0 (l.questions_per_day - u.today.questions_count))
                (max 0 (l.questions_per_month - u.monthly.questions)) :=
            le_min (le_max_left _ _) (le_max_left _ _)
          omega
        · intro hcon
          exact absurd hcon.1 hd
    · intro hd hm
      rw [if_neg (fun hcon => hd hcon.1), if_neg hd, if_pos hm]
      rfl
    · intro hd hm
      rw [if_neg (fun hcon => hm hcon.2), if_pos hd, if_neg hm]
      rfl
    · intro hd hm
      rw [if_neg (fun hcon => hd hcon.1), if_neg hd, if_neg hm]
      rfl
    · by_cases hdr : l.drafts_per_month = -1
      · rw [if_pos hdr]
        simp [hdr]
      · rw [if_neg hdr]
        constructor
        · intro hcon
          injection hcon with hv
          have h0 : (0 : Int) ≤ max 0 (l.drafts_per_month - u.monthly.drafts) :=
            le_max_left _ _
          omega
        · intro hcon
          exact absurd hcon hdr
    · intro hdr
      rw [if_neg hdr]
    · by_cases hdl : l.deadlines_per_month = -1
      · rw [if_pos hdl]
        simp [hdl]
      · rw [if_neg hdl]
        constructor
        · intro hcon
          injection hcon with hv
          have h0 : (0 : Int) ≤ max 0 (l.deadlines_per_month - u.monthly.deadlines) :=
            le_max_left _ _
          omega
        · intro hcon
          exact absurd hcon hdl
    · intro hdl
      rw [if_neg hdl]
  · intro usage action
    cases usage with
    | none => exact ⟨-1, rfl, Or.inl rfl⟩
    | some u =>
      cases action with
      | questions =>
        by_cases hd : (u.limits.getD DEFAULT_LIMITS).questions_per_day = -1 <;>
          by_cases hm : (u.limits.getD DEFAULT_LIMITS).questions_per_month = -1
        · exact ⟨-1, by simp [getRemainingCount, hd, hm], Or.inl rfl⟩
        · exact ⟨max 0 ((u.limits.getD DEFAULT_LIMITS).questions_per_month - u.monthly.questions),
            by simp [getRemainingCount, hd, hm, jmin], Or.inr (le_max_left _ _)⟩
        · exact ⟨max 0 ((u.limits.getD DEFAULT_LIMITS).questions_per_day - u.today.questions_count),
            by simp [getRemainingCount, hd, hm, jmin], Or.inr (le_max_left _ _)⟩
        · exact ⟨min (max 0 ((u.limits.getD DEFAULT_LIMITS).questions_per_day - u.today.questions_count))
              (max 0 ((u.limits.getD DEFAULT_LIMITS).questions_per_month - u.monthly.questions)),
            by simp [getRemainingCount, hd, hm, jmin],
            Or.inr (le_min (le_max_left _ _) (le_max_left _ _))⟩
      | drafts =>
        by_cases hdr : (u.limits.getD DEFAULT_LIMITS).drafts_per_month = -1
        · exact ⟨-1, by simp [getRemainingCount, hdr], Or.inl rfl⟩
        · exact ⟨max 0 ((u.limits.getD DEFAULT_LIMITS).drafts_per_month - u.monthly.drafts),
            by simp [getRemainingCount, hdr], Or.inr (le_max_left _ _)⟩
      | deadlines =>
        by_cases hdl : (u.limits.getD DEFAULT_LIMITS).deadlines_per_month = -1
        · exact ⟨-1, by simp [getRemainingCount, hdl], Or.inl rfl⟩
        · exact ⟨max 0 ((u.limits.getD DEFAULT_LIMITS).deadlines_per_month - u.monthly.deadlines),
            by simp [getRemainingCount, hdl], Or.inr (le_max_left _ _)⟩

/-- Witness for C9 at a concrete usage state: with the default limits and
one question used today, two remain. -/
theorem claim_C9_witness :
    getRemainingCount
      (some { today := ⟨1, 0, 0⟩, monthly := ⟨1, 0, 0⟩,
              limits := some DEFAULT_LIMITS }) .questions = .fin 2 := by
  have h := ((claim_C9_remaining_counts.1
      { today := ⟨1, 0, 0⟩, monthly := ⟨1, 0, 0⟩, limits := some DEFAULT_LIMITS }
      DEFAULT_LIMITS rfl).2.2.2.1 (by decide) (by decide))
  rw [h]
  decide

/-- C1 (amended): for every JSON parser, every stream and every way of
cutting it into chunks, the SSE loop processes exactly the
newline-terminated lines of the full stream in order, keeping the
trailing incomplete line in the buffer; the dispatched callback sequence
is independent of the chunking; lines without the `data: ` prefix, lines
with empty or unparseable payloads, and parsed events whose `type` is
not one of `meta`/`token`/`done`/`error` dispatch nothing, and each of
the four known types dispatches exactly its one callback. -/
theorem claim_C1_sse_loop (parse : List Char → Option Json)
    (chunks chunks2 : List (List Char)) (h : chunks.flatten = chunks2.flatten) :
    ((runStream parse [] chunks).2 =
      processLines parse (splitNl chunks.flatten).1) ∧
    ((runStream parse [] chunks).1 = (splitNl chunks.flatten).2) ∧
    ((runStream parse [] chunks2).2 = (runStream parse [] chunks).2) ∧
    (∀ line, ¬ (("data: ".data).isPrefixOf line = true) →
      processLine parse line = []) ∧
    (∀ line, ("data: ".data).isPrefixOf line = true →
      trimChars (line.drop 6) = [] → processLine parse line = []) ∧
    (∀ line, ("data: ".data).isPrefixOf line = true →
      trimChars (line.drop 6) ≠ [] → parse (trimChars (line.drop 6)) = none →
      processLine parse line = []) ∧
    (∀ line j, ("data: ".data).isPrefixOf line = true →
      trimChars (line.drop 6) ≠ [] → parse (trimChars (line.drop 6)) = some j →
      processLine parse line = dispatchEvent j) ∧
    (∀ j t, j.getField "type".data = some (.str t) →
      ((t = "meta".data → dispatchEvent j =
        [.onMeta (j.getField "classification".data) (j.getField "sources".data)
          (j.getField "has_deadlines".data)]) ∧
       (t = "token".data → dispatchEvent j = [.onToken (j.getField "text".data)]) ∧
       (t = "done".data → dispatchEvent j = [.onDone]) ∧
       (t = "error".data → dispatchEvent j = [.onError (j.getField "message".data)]) ∧
       (t ≠ "meta".data → t ≠ "token".data → t ≠ "done".data → t ≠ "error".data →
        dispatchEvent j = []))) ∧
    (∀ j, (dispatchEvent j).length ≤ 1) := by
  have run1 := runStream_join parse [] chunks (by simp)
  have run2 := runStream_join parse [] chunks2 (by simp)
  refine ⟨?_, ?_, ?_, ?_, ?_, ?_, ?_, ?_, ?_⟩
  · rw [run1]
    rfl
  · rw [run1]
    rfl
  · rw [run1, run2, h]
  · intro line hline
    rw [processLine, if_neg hline]
  · intro line hline hempty
    rw [processLine, if_pos hline, hempty]
  · intro line hline hne hparse
    rw [processLine, if_pos hline]
    cases htrim : trimChars (line.drop 6) with
    | nil => exact absurd htrim hne
    | cons c cs =>
      show (match parse (c :: cs) with
        | some j => dispatchEvent j
        | none => []) = []
      rw [htrim] at hparse
      rw [hparse]
  · intro line j hline hne hparse
    rw [processLine, if_pos hline]
    cases htrim : trimChars (line.drop 6) with
    | nil => exact absurd htrim hne
    | cons c cs =>
      show (match parse (c :: cs) with
        | some j => dispatchEvent j
        | none => []) = dispatchEvent j
      rw [htrim] at hparse
      rw [hparse]
  · intro j t hty
    refine ⟨?_, ?_, ?_, ?_, ?_⟩
    · intro ht
      simp [dispatchEvent, hty, ht]
    · intro ht
      simp [dispatchEvent, hty, ht]
    · intro ht
      simp [dispatchEvent, hty, ht]
    · intro ht
      simp [dispatchEvent, hty, ht]
    · intro h1 h2 h3 h4
      simp [dispatchEvent, hty, h1, h2, h3, h4]
  · intro j
    cases hty : j.getField "type".data with
    | none => simp [dispatchEvent, hty]
    | some v =>
      cases v <;> simp [dispatchEvent, hty] <;> split_ifs <;> simp

/-- Witness for C1: the same one-event stream cut in two different
places dispatches the same callbacks. -/
theorem claim_C1_witness :
    (runStream jsonParse []
      ["data: \x7b\"ty".data, "pe\":\"done\"\x7d\n".data]).2 =
    (runStream jsonParse [] ["data: \x7b\"type\":\"done\"\x7d\n".data]).2 :=
  (claim_C1_sse_loop jsonParse ["data: \x7b\"type\":\"done\"\x7d\n".data]
    ["data: \x7b\"ty".data, "pe\":\"done\"\x7d\n".data] (by decide)).2.2.1

/-- Counterexample to C1 as stated: the single complete line
`data: {"type":"ping"}` starts with `data: `, has a non-empty payload
that is well-formed JSON, yet the loop dispatches no callback at all —
not "exactly one callback" as the claim requires. -/
theorem claim_C1_counterexample :
    (("data: ".data).isPrefixOf "data: \x7b\"type\":\"ping\"\x7d".data = true) ∧
    trimChars ("data: \x7b\"type\":\"ping\"\x7d".data.drop 6) ≠ [] ∧
    (jsonParse (trimChars ("data: \x7b\"type\":\"ping\"\x7d".data.drop 6))).isSome = true ∧
    (splitNl ("data: \x7b\"type\":\"ping\"\x7d\n".data)).1 =
      ["data: \x7b\"type\":\"ping\"\x7d".data] ∧
    (runStream jsonParse [] ["data: \x7b\"type\":\"ping\"\x7d\n".data]).2 = [] := by
  refine ⟨by decide, by decide, by decide, by decide, ?_⟩
  rfl

/-! ### Sample chat states for concrete evaluations -/

def sampleUserMsg : ChatMessage :=
  { role := .user, content := "سؤال".data }

def sampleStreamingMsg : ChatMessage :=
  { role := .assistant, content := "جواب".data, isStreaming := true }

/-- A state in the middle of a streaming request. -/
def sampleStreamingState : ChatState :=
  { messages := [sampleUserMsg, sampleStreamingMsg],
    input := [], loading := true, isThinking := false,
    modelMode := "2.1".data, currentConvId := none,
    streamingContent := "جواب".data,
    streamingSources := none, streamingClassification := none,
    abortSet := true, pendingRetry := none }

/-- An idle state with a typed question. -/
def sampleIdleState : ChatState :=
  { messages := [], input := "سؤال".data, loading := false, isThinking := false,
    modelMode := "2.1".data, currentConvId := none,
    streamingContent := [],
    streamingSources := none, streamingClassification := none,
    abortSet := false, pendingRetry := none }

/-- C3: at most one in-flight request per chat session: while `loading`
is set, `sendMessage` returns immediately leaving the state untouched
and issuing no request, and the submit button is disabled; any step that
issues a request leaves `loading` set; and a `true → false` transition
of `loading` happens only through `onDone`, `onError` or
`stopGenerating`. -/
theorem claim_C3_single_inflight :
    (∀ (st : ChatState) (question : Option (List Char)) (skip : Bool)
      (convResult : Option (List Char)), st.loading = true →
      sendMessage st question skip convResult = (st, none)) ∧
    (∀ st : ChatState, st.loading = true → submitDisabled st = true) ∧
    (∀ (st : ChatState) (question : Option (List Char)) (skip : Bool)
      (convResult : Option (List Char)) (st2 : ChatState) (req : StreamRequest),
      sendMessage st question skip convResult = (st2, some req) →
      st2.loading = true) ∧
    (∀ (st : ChatState) (ev : ChatEvent),
      st.loading = true → ((chatStep st ev).1).loading = false →
      ev = .done ∨ (∃ m, ev = .error m) ∨ ev = .stop) := by
  refine ⟨sendMessage_blocked, ?_, ?_, ?_⟩
  · intro st h
    rw [submitDisabled, h, Bool.true_or]
  · intro st question skip convResult st2 req hsend
    by_cases hq : effectiveQuestion st question = []
    · rw [sendMessage, if_pos (by rw [hq]; simp)] at hsend
      exact absurd (congrArg Prod.snd hsend) (by simp)
    · by_cases hl : st.loading = true
      · rw [sendMessage_blocked st question skip convResult hl] at hsend
        exact absurd (congrArg Prod.snd hsend) (by simp)
      · rw [sendMessage, if_neg (by simp [hq, hl])] at hsend
        have := congrArg Prod.fst hsend
        simp only at this
        rw [← this]
  · intro st ev hl hstep
    cases ev with
    | send question skip convResult =>
      rw [chatStep] at hstep
      simp only [sendMessage_blocked st question skip convResult hl] at hstep
      rw [hstep] at hl
      exact absurd hl (by simp)
    | meta s c => simp [chatStep, stepMeta, hl] at hstep
    | token t => simp [chatStep, stepToken, hl] at hstep
    | done => exact Or.inl rfl
    | error m => exact Or.inr (Or.inl ⟨m, rfl⟩)
    | stop => exact Or.inr (Or.inr rfl)
    | retry => simp [chatStep, stepRetry, hl] at hstep
    | regenerate => simp [chatStep, stepRegenerate, hl] at hstep
    | setInput s => simp [chatStep, hl] at hstep
    | setModelMode m => simp [chatStep, hl] at hstep

/-- Witness for C3: in the sample mid-stream state, `sendMessage` is a
no-op and the submit button is disabled. -/
theorem claim_C3_witness :
    sendMessage sampleStreamingState (some "س".data) false none =
      (sampleStreamingState, none) ∧
    submitDisabled sampleStreamingState = true :=
  ⟨claim_C3_single_inflight.1 sampleStreamingState (some "س".data) false none rfl,
    claim_C3_single_inflight.2.1 sampleStreamingState rfl⟩

/-- When the question limit is reached, the banner shows the red
limit-reached state. -/
theorem banner_limitReached (u : UsageData)
    (h1 : canPerformAction (some u) .questions = false) :
    usageLimitBanner false (some u) .questions = .limitReached := by
  obtain ⟨v, hv0, hrem⟩ := canPerform_false_remaining u h1
  rw [usageLimitBanner, if_neg (by decide : ¬ (false = true))]
  simp only [hrem, h1]
  rw [if_neg (fun hcon => by injection hcon with hh; omega)]
  simp

/-- C4 (amended): the chat client does not gate sending on usage
limits: when `canPerformAction('questions')` is false the UI only shows
the limit-reached banner, while the send control's disabled state still
depends only on `loading` and emptiness of the input, `sendMessage`
still issues the streaming request, and enforcement is server-side
(HTTP 429 translating to its dedicated message). -/
theorem claim_C4_limit_gate (usage : Option UsageData) (st : ChatState)
    (q : List Char) (conv : Option (List Char))
    (h1 : canPerformAction usage .questions = false)
    (h2 : st.loading = false) (h3 : q ≠ []) :
    usageLimitBanner false usage .questions = .limitReached ∧
    ((sendMessage st (some q) false conv).2).isSome = true ∧
    submitDisabled st = (trimChars st.input).isEmpty ∧
    (∀ parse : List Char → Option Json,
      askStreamRun parse true (.httpError 429 true none) =
        [.onError (some (.str msg429))]) := by
  obtain ⟨u, rfl⟩ : ∃ u, usage = some u := by
    cases usage with
    | none => exact absurd h1 (by simp [canPerformAction])
    | some u => exact ⟨u, rfl⟩
  refine ⟨banner_limitReached u h1, ?_, ?_, fun parse => rfl⟩
  · rw [sendMessage]
    rw [if_neg (by simp [effectiveQuestion, if_neg h3, h3, h2])]
    rfl
  · rw [submitDisabled, h2, Bool.false_or]

/-- Witness for C4's amended statement at a concrete limited state. -/
theorem claim_C4_witness :
    usageLimitBanner false
      (some ⟨⟨3, 0, 0⟩, ⟨3, 0, 0⟩, some DEFAULT_LIMITS⟩) .questions =
        .limitReached ∧
    ((sendMessage sampleIdleState (some "س".data) false none).2).isSome = true := by
  have h := claim_C4_limit_gate
    (some ⟨⟨3, 0, 0⟩, ⟨3, 0, 0⟩, some DEFAULT_LIMITS⟩) sampleIdleState
    "س".data none (by decide) rfl (by decide)
  exact ⟨h.1, h.2.1⟩

/-- Counterexample to C4 as stated: with the daily question limit
reached, the submit control is still enabled and `sendMessage` still
issues a streaming request — the client has no usage-limit gate on
sending. -/
theorem claim_C4_counterexample :
    canPerformAction
      (some ⟨⟨3, 0, 0⟩, ⟨3, 0, 0⟩, some DEFAULT_LIMITS⟩) .questions = false ∧
    submitDisabled sampleIdleState = false ∧
    ((sendMessage sampleIdleState (some "سؤال".data) false none).2).isSome = true := by
  exact ⟨by decide, by decide, rfl⟩

/-- C5: `stopGenerating` aborts the live controller, clears it, resets
`loading` and `isThinking`, finalizes a trailing streaming message with
the accumulated streaming content, and leaves every other message
unchanged. -/
theorem claim_C5_stop_generating :
    ∀ (st : ChatState) (rest : List ChatMessage) (last : ChatMessage),
      st.messages = rest ++ [last] → last.isStreaming = true →
      last.content = st.streamingContent → st.abortSet = true →
      (stopGenerating st).2 = true ∧
      (stopGenerating st).1.abortSet = false ∧
      (stopGenerating st).1.loading = false ∧
      (stopGenerating st).1.isThinking = false ∧
      (stopGenerating st).1.messages =
        rest ++ [{ last with content := st.streamingContent, isStreaming := false }] := by
  intro st rest last hm hstream hc habort
  refine ⟨habort, rfl, rfl, rfl, ?_⟩
  show updateLast _ st.messages = _
  rw [hm, updateLast_append]
  simp only [if_pos hstream]
  by_cases hsc : st.streamingContent = []
  · rw [if_pos hsc, hc, hsc]
  · rw [if_neg hsc]

/-- Witness for C5 at the sample mid-stream state. -/
theorem claim_C5_witness :
    (stopGenerating sampleStreamingState).2 = true ∧
    (stopGenerating sampleStreamingState).1.messages =
      [sampleUserMsg, { sampleStreamingMsg with content := "جواب".data, isStreaming := false }] := by
  have h := claim_C5_stop_generating sampleStreamingState [sampleUserMsg]
    sampleStreamingMsg rfl rfl rfl rfl
  exact ⟨h.1, h.2.2.2.2⟩

/-- Repeated `onToken` callbacks, in arrival order. -/
def applyTokens (st : ChatState) (ts : List (List Char)) : ChatState :=
  ts.foldl stepToken st

theorem applyTokens_spec (ts : List (List Char)) :
    ∀ (st : ChatState) (rest : List ChatMessage) (last : ChatMessage),
      st.messages = rest ++ [last] → last.isStreaming = true →
      last.content = st.streamingContent →
      (applyTokens st ts).messages =
        rest ++ [{ last with content := st.streamingContent ++ ts.flatten, isStreaming := true }] ∧
      (applyTokens st ts).streamingContent = st.streamingContent ++ ts.flatten := by
  induction ts with
  | nil =>
    intro st rest last hm hstream hc
    refine ⟨?_, by simp [applyTokens]⟩
    show st.messages = _
    rw [hm, List.flatten_nil, List.append_nil]
    cases last with
    | mk id role content sources classification isStreaming isError =>
      simp only at hstream hc
      rw [hstream, hc]
  | cons t ts ih =>
    intro st rest last hm hstream hc
    have hstep : (stepToken st t).messages =
        rest ++ [{ last with content := st.streamingContent ++ t, isStreaming := true }] := by
      show updateLast _ st.messages = _
      rw [hm, updateLast_append]
    have h2 := ih (stepToken st t) rest
      { last with content := st.streamingContent ++ t, isStreaming := true }
      hstep rfl rfl
    refine ⟨?_, ?_⟩
    · rw [show applyTokens st (t :: ts) = applyTokens (stepToken st t) ts from rfl,
        h2.1]
      simp [stepToken, List.append_assoc]
    · rw [show applyTokens st (t :: ts) = applyTokens (stepToken st t) ts from rfl,
        h2.2]
      show (st.streamingContent ++ t) ++ ts.flatten = _
      simp [List.append_assoc]

/-- C7: starting from the freshly-added empty streaming message, after
the first `k` `onToken` callbacks the streaming message's content is the
concatenation of the first `k` token texts in arrival order, and every
message other than the last is untouched. -/
theorem claim_C7_token_accumulation :
    ∀ (st : ChatState) (rest : List ChatMessage) (last : ChatMessage)
      (ts : List (List Char)) (k : Nat),
      st.messages = rest ++ [last] → last.isStreaming = true →
      last.content = [] → st.streamingContent = [] → k ≤ ts.length →
      (applyTokens st (ts.take k)).messages =
        rest ++ [{ last with content := (ts.take k).flatten, isStreaming := true }] ∧
      (applyTokens st (ts.take k)).streamingContent = (ts.take k).flatten := by
  intro st rest last ts k hm hstream hc hsc hk
  have h := applyTokens_spec (ts.take k) st rest last hm hstream (by rw [hc, hsc])
  rw [hsc] at h
  exact ⟨by rw [h.1]; simp, by rw [h.2]; simp⟩

/-- The state right after `sendMessage` appended the empty streaming
message. -/
def samplePostSendState : ChatState :=
  { messages := [sampleUserMsg,
      { role := .assistant, content := [], isStreaming := true }],
    input := [], loading := true, isThinking := true,
    modelMode := "2.1".data, currentConvId := none,
    streamingContent := [],
    streamingSources := none, streamingClassification := none,
    abortSet := true, pendingRetry := none }

/-- Witness for C7: two tokens accumulate into their concatenation. -/
theorem claim_C7_witness :
    (applyTokens samplePostSendState (["اب".data, "ج".data].take 2)).streamingContent =
      (["اب".data, "ج".data].take 2).flatten := by
  have h := claim_C7_token_accumulation samplePostSendState [sampleUserMsg]
    { role := .assistant, content := [], isStreaming := true }
    ["اب".data, "ج".data] 2 rfl rfl rfl rfl (by decide)
  exact h.2

theorem catchHandler_abort (online : Bool) (message : List Char) :
    catchHandler online abortErrorName message = .onError (some (.str msgTimeout)) := by
  rw [catchHandler, if_pos rfl]

theorem catchHandler_offline (name message : List Char) (hn : name ≠ abortErrorName) :
    catchHandler false name message = .onError (some (.str msgOffline)) := by
  rw [catchHandler, if_neg hn, if_pos rfl]

theorem catchHandler_online (name message : List Char) (hn : name ≠ abortErrorName) :
    catchHandler true name message =
      .onError (some (.str (if message = [] then msgConnFallback else message))) := by
  rw [catchHandler, if_neg hn, if_neg (by simp)]

/-- C6 (amended): `askQuestionStreaming` reports every failure through a
single trailing `onError` with a localized message, the clauses applying
in the source's order of precedence: an abort (from `stopGenerating` or
the 120 s timer) gives the timeout message; otherwise a detected offline
state gives the offline message; otherwise 401/429/503 give their
dedicated messages, any other non-OK response gives its `detail` field
when non-empty, the fallback `'خطأ في الاتصال'` when the body is not
JSON, `'حدث خطأ'` otherwise, and any other exception gives its own
message or `'حدث خطأ في الاتصال'`; a normally-ending stream appends no
error. -/
theorem claim_C6_error_translation (parse : List Char → Option Json)
    (online : Bool) (status : Nat) (jsonOk : Bool)
    (detail : Option (List Char)) (name message : List Char)
    (chunks : List (List Char)) :
    (askStreamRun parse online (.fetchThrow abortErrorName message) =
      [.onError (some (.str msgTimeout))]) ∧
    (askStreamRun parse online (.stream chunks (.thrown abortErrorName message)) =
      (runStream parse [] chunks).2 ++ [.onError (some (.str msgTimeout))]) ∧
    (name ≠ abortErrorName →
      askStreamRun parse false (.fetchThrow name message) =
        [.onError (some (.str msgOffline))]) ∧
    (name ≠ abortErrorName →
      askStreamRun parse true (.fetchThrow name message) =
        [.onError (some (.str (if message = [] then msgConnFallback else message)))]) ∧
    (askStreamRun parse true (.httpError 401 jsonOk detail) =
      [.onError (some (.str msg401))]) ∧
    (askStreamRun parse true (.httpError 429 jsonOk detail) =
      [.onError (some (.str msg429))]) ∧
    (askStreamRun parse true (.httpError 503 jsonOk detail) =
      [.onError (some (.str msg503))]) ∧
    (status ≠ 401 → status ≠ 429 → status ≠ 503 →
      ∀ d : List Char, d ≠ [] →
      askStreamRun parse true (.httpError status true (some d)) =
        [.onError (some (.str d))]) ∧
    (status ≠ 401 → status ≠ 429 → status ≠ 503 →
      (detail = none ∨ detail = some []) →
      askStreamRun parse true (.httpError status true detail) =
        [.onError (some (.str msgGeneric))]) ∧
    (status ≠ 401 → status ≠ 429 → status ≠ 503 →
      askStreamRun parse true (.httpError status false detail) =
        [.onError (some (.str msgBodyNotJson))]) ∧
    (askStreamRun parse true .noBody =
      [.onError (some (.str msgNoStreamSupport))]) ∧
    (askStreamRun parse online (.stream chunks .normal) =
      (runStream parse [] chunks).2) := by
  have hErrName : "Error".data ≠ abortErrorName := by decide
  refine ⟨?_, ?_, ?_, ?_, ?_, ?_, ?_, ?_, ?_, ?_, ?_, rfl⟩
  · show [catchHandler online abortErrorName message] = _
    rw [catchHandler_abort]
  · show (runStream parse [] chunks).2 ++ [catchHandler online abortErrorName message] = _
    rw [catchHandler_abort]
  · intro hn
    show [catchHandler false name message] = _
    rw [catchHandler_offline name message hn]
  · intro hn
    show [catchHandler true name message] = _
    rw [catchHandler_online name message hn]
  · show [catchHandler true "Error".data (httpErrorMessage 401 jsonOk detail)] = _
    rw [catchHandler_online _ _ hErrName,
      if_neg (httpErrorMessage_ne_nil 401 jsonOk detail)]
    rw [httpErrorMessage, if_pos rfl]
  · show [catchHandler true "Error".data (httpErrorMessage 429 jsonOk detail)] = _
    rw [catchHandler_online _ _ hErrName,
      if_neg (httpErrorMessage_ne_nil 429 jsonOk detail)]
    rw [httpErrorMessage, if_neg (by decide), if_pos rfl]
  · show [catchHandler true "Error".data (httpErrorMessage 503 jsonOk detail)] = _
    rw [catchHandler_online _ _ hErrName,
      if_neg (httpErrorMessage_ne_nil 503 jsonOk detail)]
    rw [httpErrorMessage, if_neg (by decide), if_neg (by decide), if_pos rfl]
  · intro h1 h2 h3 d hd
    show [catchHandler true "Error".data (httpErrorMessage status true (some d))] = _
    rw [catchHandler_online _ _ hErrName,
      if_neg (httpErrorMessage_ne_nil status true (some d))]
    rw [httpErrorMessage, if_neg h1, if_neg h2, if_neg h3, if_pos rfl]
    show [Callback.onError (some (Json.str (if d = [] then msgGeneric else d)))] = _
    rw [if_neg hd]
  · intro h1 h2 h3 hdet
    show [catchHandler true "Error".data (httpErrorMessage status true detail)] = _
    rw [catchHandler_online _ _ hErrName,
      if_neg (httpErrorMessage_ne_nil status true detail)]
    rw [httpErrorMessage, if_neg h1, if_neg h2, if_neg h3]
    rcases hdet with h | h
    · rw [h, if_pos rfl]
    · rw [h, if_pos rfl]
      rfl
  · intro h1 h2 h3
    show [catchHandler true "Error".data (httpErrorMessage status false detail)] = _
    rw [catchHandler_online _ _ hErrName,
      if_neg (httpErrorMessage_ne_nil status false detail)]
    rw [httpErrorMessage, if_neg h1, if_neg h2, if_neg h3,
      if_neg (show ¬(false = true) by decide)]
    rfl
  · show [catchHandler true "Error".data msgNoStreamSupport] = _
    rw [catchHandler_online _ _ hErrName, if_neg (by decide)]

/-- Witness for C6: an online 401 response is reported as the dedicated
session-expiry message. -/
theorem claim_C6_witness :
    askStreamRun jsonParse true (.httpError 401 true none) =
      [.onError (some (.str msg401))] :=
  (claim_C6_error_translation jsonParse true 500 true none
    "TypeError".data "x".data []).2.2.2.2.1

/-- Counterexample to C6 as stated: a 500 response whose body is not
JSON has no `detail` field, yet `onError` receives `'خطأ في الاتصال'`,
which is neither the detail field nor `'حدث خطأ'` (nor the
other-exception fallback `'حدث خطأ في الاتصال'`). -/
theorem claim_C6_counterexample :
    askStreamRun jsonParse true (.httpError 500 false none) =
      [.onError (some (.str msgBodyNotJson))] ∧
    msgBodyNotJson ≠ msgGeneric ∧
    msgBodyNotJson ≠ msgConnFallback := by
  refine ⟨?_, by decide, by decide⟩
  rfl

/-- C8 (amended): each of `askQuestionStreaming`, `askQuestion` and
`draftDocument` does install one application-level mechanism beyond
standard HTTP timeouts: a 120 000 ms `setTimeout` whose callback aborts
the request's controller (cleared in `finally`); when it fires, the
request ends with the timeout message. -/
theorem claim_C8_timeout_timer :
    askQuestionStreamingSetup = ⟨some 120000, true, true⟩ ∧
    askQuestionSetup = ⟨some 120000, true, true⟩ ∧
    draftDocumentSetup = ⟨some 120000, true, true⟩ ∧
    (∀ (parse : List Char → Option Json) (online : Bool) (message : List Char),
      askStreamRun parse online (.fetchThrow abortErrorName message) =
        [.onError (some (.str msgTimeout))]) := by
  refine ⟨rfl, rfl, rfl, fun parse online message => ?_⟩
  show [catchHandler online abortErrorName message] = _
  rw [catchHandler_abort]

/-- Counterexample to C8 as stated: `askQuestionStreaming` (and the two
others) install an application-level 120 s timer that aborts the
request. -/
theorem claim_C8_counterexample :
    askQuestionStreamingSetup.timerMs = some 120000 ∧
    askQuestionStreamingSetup.timerAborts = true ∧
    askQuestionSetup.timerMs = some 120000 ∧
    draftDocumentSetup.timerMs = some 120000 :=
  ⟨rfl, rfl, rfl, rfl⟩

theorem mem_enumFrom_snd {α : Type} (l : List α) :
    ∀ (n : Nat) (p : Nat × α), p ∈ List.enumFrom n l → p.2 ∈ l := by
  induction l with
  | nil =>
    intro n p h
    simp [List.enumFrom] at h
  | cons a l ih =>
    intro n p h
    rw [List.enumFrom] at h
    rcases List.mem_cons.mp h with h1 | h2
    · rw [h1]
      exact List.mem_cons_self a l
    · exact List.mem_cons_of_mem a (ih (n + 1) p h2)

theorem enumFrom_map_snd {α β : Type} (g : α → β) (l : List α) :
    ∀ n : Nat, (List.enumFrom n l).map (fun p => g p.2) = l.map g := by
  induction l with
  | nil => intro n; rfl
  | cons a l ih =>
    intro n
    rw [List.enumFrom, List.map_cons, List.map_cons, ih (n + 1)]

/-- C10: the chat history sent with a streaming request holds at most
the last 4 prior messages; assistant entries are cut to 500 characters
with `...` appended exactly when something was cut (so at most 503),
user entries pass through unchanged; and with no prior messages the
request carries no history. -/
theorem claim_C10_history_bounded :
    ∀ (msgs : List ChatMessage) (skip : Bool),
      ((buildChatHistory msgs skip).length ≤ 4) ∧
      (buildChatHistory msgs false =
        (lastN 4 msgs).map (fun m => ⟨m.role, truncateForHistory m⟩)) ∧
      (∀ e, e ∈ buildChatHistory msgs skip → ∃ m, m ∈ lastN 4 msgs ∧
        e.role = m.role ∧ e.content = truncateForHistory m) ∧
      (∀ m : ChatMessage, m.role = .user → truncateForHistory m = m.content) ∧
      (∀ m : ChatMessage, m.role = .assistant →
        ((truncateForHistory m).length ≤ 503 ∧
         (m.content.length ≤ 500 → truncateForHistory m = m.content) ∧
         (500 < m.content.length →
          truncateForHistory m = m.content.take 500 ++ "...".data))) ∧
      (∀ (st : ChatState) (q : List Char) (conv : Option (List Char)),
        st.loading = false → q ≠ [] → st.messages = msgs →
        (sendMessage st (some q) skip conv).2 =
          some { question := q,
                 chatHistory := if buildChatHistory msgs skip = [] then none
                                 else some (buildChatHistory msgs skip),
                 modelMode := st.modelMode }) ∧
      (buildChatHistory ([] : List ChatMessage) skip = []) := by
  intro msgs skip
  refine ⟨?_, ?_, ?_, ?_, ?_, ?_, rfl⟩
  · rw [buildChatHistory]
    simp only [List.length_map]
    calc (List.filter _ (lastN 4 msgs).enum).length
        ≤ (lastN 4 msgs).enum.length := List.length_filter_le _ _
      _ = (lastN 4 msgs).length := List.enumFrom_length
      _ ≤ 4 := by rw [lastN, List.length_drop]; omega
  · rw [buildChatHistory]
    simp only [Bool.false_and, Bool.not_false, List.filter_true]
    show (List.enumFrom 0 (lastN 4 msgs)).map
      (fun p => (fun m => ({ role := m.role, content := truncateForHistory m } : HistEntry)) p.2) = _
    exact enumFrom_map_snd
      (fun m => ({ role := m.role, content := truncateForHistory m } : HistEntry))
      (lastN 4 msgs) 0
  · intro e he
    rw [buildChatHistory] at he
    simp only [List.mem_map] at he
    obtain ⟨p, hp, rfl⟩ := he
    exact ⟨p.2, mem_enumFrom_snd (lastN 4 msgs) 0 p (List.mem_of_mem_filter hp),
      rfl, rfl⟩
  · intro m hrole
    rw [truncateForHistory, if_neg (by rw [hrole]; decide)]
  · intro m hrole
    rw [truncateForHistory, if_pos hrole]
    refine ⟨?_, ?_, ?_⟩
    · by_cases h5 : 500 < m.content.length
      · rw [if_pos h5]
        simp only [List.length_append, List.length_take]
        have h3 : (['.', '.', '.'] : List Char).length = 3 := rfl
        omega
      · rw [if_neg h5]
        simp only [List.append_nil, List.length_take]
        omega
    · intro hle
      rw [if_neg (by omega), List.take_of_length_le hle, List.append_nil]
    · intro hgt
      rw [if_pos hgt]
  · intro st q conv hl hq hmsgs
    rw [sendMessage, if_neg (by simp [effectiveQuestion, if_neg hq, hq, hl])]
    simp only [effectiveQuestion, if_neg hq, hmsgs]

/-- Witness for C10: a five-message conversation with a long assistant
answer produces a 4-entry history whose assistant entries are
truncated. -/
theorem claim_C10_witness :
    (buildChatHistory
      [sampleUserMsg, sampleStreamingMsg, sampleUserMsg, sampleStreamingMsg,
        sampleUserMsg] false).length ≤ 4 ∧
    truncateForHistory sampleUserMsg = sampleUserMsg.content := by
  have h := claim_C10_history_bounded
    [sampleUserMsg, sampleStreamingMsg, sampleUserMsg, sampleStreamingMsg,
      sampleUserMsg] false
  exact ⟨h.1, h.2.2.2.1 sampleUserMsg rfl⟩

end LegalAssistant
